import Mathlib

/-!
Shallow embedding of the enmovito data-loading and plot-composition logic
(src/enmovito/data_handler.py and src/enmovito/gui/visualization.py).

Python dictionaries are modelled as insertion-ordered association lists,
pandas data frames as ordered lists of named columns, and file access as a
function from paths to optional line lists.  Python string primitives
(strip, split, replace, substring test) are modelled by structural
recursion over character lists so that every definition evaluates inside
the kernel.  All machine reals that matter to the claims are modelled as
rationals.
-/

/-- Model of Python `s.split(sep)` for a one-character separator, on the
character list of the string: empty fields are preserved and the result is
never empty. -/
def splitOnChar (c : Char) : List Char → List (List Char)
  | [] => [[]]
  | x :: xs =>
    if x = c then
      [] :: splitOnChar c xs
    else
      match splitOnChar c xs with
      | [] => [[x]]
      | y :: ys => (x :: y) :: ys

/-- Model of Python `s.split(sep)` on strings. -/
def pySplit (sep : Char) (s : String) : List String :=
  (splitOnChar sep s.data).map String.mk

/-- Model of Python `line.split(",")`. -/
def splitComma (s : String) : List String := pySplit ',' s

/-- Model of Python `s.strip()`: drop whitespace from both ends. -/
def pyStrip (s : String) : String :=
  String.mk (((s.data.dropWhile Char.isWhitespace).reverse.dropWhile
    Char.isWhitespace).reverse)

/-- Model of Python list/string leading-segment test used below for substring
search and replacement. -/
def startsL : List Char → List Char → Bool
  | [], _ => true
  | _ :: _, [] => false
  | a :: as, b :: bs => a == b && startsL as bs

/-- Model of Python `needle in hay` on strings: contiguous substring test. -/
def hasSub (needle : List Char) : List Char → Bool
  | [] => needle.isEmpty
  | c :: t => startsL needle (c :: t) || hasSub needle t

/-- Fuel-driven worker for `pyReplace`: replace each left-to-right
non-overlapping occurrence of the needle.  The fuel only has to bound the
length of the text, which never grows along the recursion. -/
def replaceFuel (needle repl : List Char) : Nat → List Char → List Char
  | _, [] => []
  | 0, l => l
  | Nat.succ fuel, c :: t =>
    if startsL needle (c :: t) && !needle.isEmpty then
      repl ++ replaceFuel needle repl fuel (t.drop (needle.length - 1))
    else
      c :: replaceFuel needle repl fuel t

/-- Model of Python `s.replace(needle, repl)` for a nonempty needle. -/
def pyReplace (s needle repl : String) : String :=
  String.mk (replaceFuel needle.data repl.data s.data.length s.data)

/-- Insertion-ordered association list, the model of a Python dict. -/
abbrev Dict (α : Type) : Type := List (String × α)

/-- Keys of a dict, in insertion order. -/
def dictKeys {α : Type} (d : Dict α) : List String := d.map Prod.fst

/-- Model of Python `d.get(k)` / `d[k]` lookup: first binding of the key. -/
def dictGet? {α : Type} (d : Dict α) (k : String) : Option α :=
  (d.find? (fun p => p.1 == k)).map Prod.snd

/-- Model of Python `d[k] = v`: update in place when the key exists,
append a new binding otherwise. -/
def dictInsert {α : Type} (d : Dict α) (k : String) (v : α) : Dict α :=
  if (dictKeys d).contains k then
    d.map (fun p => if p.1 == k then (k, v) else p)
  else
    d ++ [(k, v)]

/-- Model of the `param_units` accumulation of generate_plot: push a value
onto the list stored at a key, creating the key at the end when absent. -/
def dictPush {α : Type} (d : Dict (List α)) (k : String) (v : α) : Dict (List α) :=
  if (dictKeys d).contains k then
    d.map (fun p => if p.1 == k then (p.1, p.2 ++ [v]) else p)
  else
    d ++ [(k, [v])]

/-- Model of a pandas DataFrame: ordered named columns of string cells. -/
abbrev Table : Type := List (String × List String)

/-- State of a DataHandler instance (src/enmovito/data_handler.py, __init__).
The static category dictionary is omitted: it is never written after
construction and no verified operation reads it. -/
structure DataHandler where
  df : Option Table
  log_file_path : Option String
  numeric_columns : List String
  abbr_to_full : Dict String
  full_to_abbr : Dict String
  use_celsius : Bool
deriving DecidableEq

/-- Freshly constructed DataHandler. -/
def initDataHandler : DataHandler :=
  { df := none
    log_file_path := none
    numeric_columns := []
    abbr_to_full := []
    full_to_abbr := []
    use_celsius := false }

/-- Indices of columns whose abbreviated name (line 3) is not
whitespace-only; mirrors the `valid_columns` loop of load_data. -/
def validColumns (abbr_names : List String) : List Nat :=
  ((abbr_names.enum.filter (fun p => pyStrip p.2 != "")).map Prod.fst)

/-- The (abbreviated, effective full) pair built for a valid column index:
an empty full name falls back to the abbreviated name, and an index beyond
the full-name line reads as the empty string.  Mirrors the mapping loop of
load_data. -/
def validPair (full_names abbr_names : List String) (i : Nat) : String × String :=
  let abbr := abbr_names.getD i ""
  let full0 := if i < full_names.length then full_names.getD i "" else ""
  (abbr, if pyStrip full0 = "" then abbr else full0)

/-- All (abbreviated, effective full) pairs of the valid columns, in order. -/
def validPairs (full_names abbr_names : List String) : List (String × String) :=
  (validColumns abbr_names).map (validPair full_names abbr_names)

/-- The two name mappings built by load_data from header lines 2 and 3:
abbreviated to full and full to abbreviated. -/
def buildMaps (full_names abbr_names : List String) : Dict String × Dict String :=
  (validColumns abbr_names).foldl
    (fun m i =>
      let p := validPair full_names abbr_names i
      (dictInsert m.1 p.1 p.2, dictInsert m.2 p.2 p.1))
    ([], [])

/-- Model of the header-reading block of load_data: open the file, skip the
title line, read lines 2 and 3, strip each and split on commas.  A missing
file raises an I/O error; a file with fewer than three lines raises
StopIteration, whose Python message text is empty. -/
def readHeaderLines (file : Option (List String)) (path : String) :
    Except String (List String × List String) :=
  match file with
  | none => Except.error ("No such file or directory: " ++ path)
  | some [] => Except.error ""
  | some [_] => Except.error ""
  | some [_, _] => Except.error ""
  | some (_ :: l1 :: l2 :: _) =>
    Except.ok (splitComma (pyStrip l1), splitComma (pyStrip l2))

/-- Model of the pandas header convention for `header=0`: a completely empty
field is renamed to "Unnamed: i" for its position i, other fields are kept
verbatim. -/
def pandasHeader (fields : List String) : List String :=
  fields.enum.map (fun p => if p.2 = "" then "Unnamed: " ++ toString p.1 else p.2)

/-- Model of `pandas.read_csv(file_path, skiprows=2, header=0)`: drop the two
preamble lines, use the next line as header, parse the rest as rows.  An
empty remainder or a row wider than the header is a parse error. -/
def readCsv (lines : List String) : Except String Table :=
  match lines.drop 2 with
  | [] => Except.error "No columns to parse from file"
  | headerLine :: dataLines =>
    let header := pandasHeader (splitComma headerLine)
    let rows := dataLines.map splitComma
    if rows.any (fun r => header.length < r.length) then
      Except.error "Error tokenizing data"
    else
      Except.ok (header.enum.map (fun p => (p.2, rows.map (fun r => r.getD p.1 ""))))

/-- Model of DataHandler.load_data.  `fs` is the file system (path to lines);
`inferNumeric` models the pandas numeric-dtype inference used by
select_dtypes.  Returns the updated state together with the (success,
message) pair; the try/except of the source appears as the error branches,
each returning the state reached so far. -/
def loadData (fs : String → Option (List String)) (inferNumeric : List String → Bool)
    (st : DataHandler) (file_path : String) : DataHandler × Bool × String :=
  let st1 := { st with log_file_path := some file_path }
  match readHeaderLines (fs file_path) file_path with
  | Except.error e => (st1, false, e)
  | Except.ok fa =>
    let maps := buildMaps fa.1 fa.2
    let st2 := { st1 with abbr_to_full := maps.1, full_to_abbr := maps.2 }
    match readCsv ((fs file_path).getD []) with
    | Except.error e => (st2, false, e)
    | Except.ok tbl =>
      let valid := tbl.filter (fun c => pyStrip c.1 != "" && !(c.1.startsWith "Unnamed:"))
      let st3 := { st2 with
        df := some valid
        numeric_columns := (valid.filter (fun c => inferNumeric c.2)).map Prod.fst }
      (st3, true, "")

/-- Model of DataHandler.get_all_columns. -/
def get_all_columns (st : DataHandler) : List String :=
  match st.df with
  | none => []
  | some t => t.map Prod.fst

/-- Model of DataHandler.get_display_names. -/
def get_display_names (st : DataHandler) : List (String × String) :=
  match st.df with
  | none => []
  | some _ =>
    (get_all_columns st).map (fun col =>
      (match dictGet? st.abbr_to_full col with
       | some full => full
       | none => col, col))

/-- Model of DataHandler.get_column_data. -/
def get_column_data (st : DataHandler) (column_name : String) : Option (List String) :=
  match st.df with
  | none => none
  | some t =>
    if (t.map Prod.fst).contains column_name then dictGet? t column_name else none

/-- Model of DataHandler.fahrenheit_to_celsius over the rationals. -/
def fahrenheit_to_celsius (f_value : ℚ) : ℚ :=
  (f_value - 32) * 5 / 9

/-- Modelled from the spec: the repository defines no celsius_to_fahrenheit
function; the spec's round-trip property presumes the standard inverse
conversion, degrees Celsius times nine fifths plus thirty-two. -/
def celsius_to_fahrenheit (c_value : ℚ) : ℚ :=
  c_value * 9 / 5 + 32

/-- Model of VisualizationPanel.extract_unit (identical to
DataHandler.extract_unit): when both parenthesis characters occur somewhere
in the name, take field 1 of the split on the opening parenthesis, then
field 0 of its split on the closing parenthesis; otherwise return
"Unknown". -/
def extract_unit (param_name : String) : String :=
  if param_name.data.contains '(' && param_name.data.contains ')' then
    String.mk ((splitOnChar ')' ((splitOnChar '(' param_name.data).getD 1 [])).getD 0 [])
  else
    "Unknown"

/-- Python `"deg F" in unit`, the Fahrenheit-unit test of generate_plot. -/
def unitHasDegF (unit : String) : Bool :=
  hasSub "deg F".data unit.data

/-- One plotted trace: its legend name (the display name), its x and y value
series, and the 1-based subplot row it was added to. -/
structure Trace where
  name : String
  xvals : List ℚ
  yvals : List ℚ
  row : Nat
deriving DecidableEq

/-- A figure as generate_plot builds it: one panel title per subplot row
(recorded here as the unit label the title carries) plus all traces. -/
structure Fig where
  panels : List String
  traces : List Trace
deriving DecidableEq

/-- A numeric data frame as handed to generate_plot: named columns of
rational values. -/
abbrev Frame : Type := List (String × List ℚ)

/-- Column lookup in a numeric frame. -/
def frameCol (df : Frame) (param : String) : List ℚ :=
  ((df.find? (fun p => p.1 == param)).map Prod.snd).getD []

/-- The `param_units` grouping loop of generate_plot: selected
(parameter, display-name) pairs bucketed by extracted unit, in first-seen
unit order. -/
def paramUnits (selected : List (String × String)) :
    Dict (List (String × String)) :=
  selected.foldl (fun d pd => dictPush d (extract_unit pd.2) pd) []

/-- The traces generate_plot adds for the unit groups, placed at rows
offset+1, offset+2, ...: one trace per grouped parameter, converted to
Celsius when the preference is set and the group unit contains "deg F". -/
def groupTraces (df : Frame) (xvals : List ℚ) (use_celsius : Bool) (f2c : ℚ → ℚ)
    (groups : Dict (List (String × String))) (offset : Nat) : List Trace :=
  groups.enum.flatMap (fun ig =>
    ig.2.2.map (fun pd =>
      { name := pd.2
        xvals := xvals
        yvals :=
          if use_celsius && unitHasDegF ig.2.1 then (frameCol df pd.1).map f2c
          else frameCol df pd.1
        row := offset + ig.1 + 1 }))

/-- The subplot titles generate_plot leaves for the new unit groups: the
unit itself, renamed to "deg C" when conversion fired for the group
(which the source does inside the per-parameter loop, hence only for a
nonempty group). -/
def groupLabels (use_celsius : Bool) (groups : Dict (List (String × String))) :
    List String :=
  groups.map (fun g =>
    if use_celsius && unitHasDegF g.1 && !g.2.isEmpty then
      pyReplace g.1 "deg F" "deg C"
    else g.1)

/-- Model of VisualizationPanel.generate_plot.  `selected` zips the parallel
selected_params and selected_display_names lists; `existing` is the figure
already in the current tab, if any; the result is `none` exactly when the
source returns False (empty selection).  The x series is converted when the
Celsius preference is set and the x display name's unit contains "deg F".
With an existing figure holding at least one trace, its panels are kept and
the new unit groups are appended after them; otherwise a fresh figure is
made with one panel per unit group. -/
def generate_plot (df : Frame) (selected : List (String × String))
    (x_param x_display : String) (use_celsius : Bool) (f2c : ℚ → ℚ)
    (existing : Option Fig) : Option Fig :=
  if selected.isEmpty then none
  else
    let x_unit := extract_unit x_display
    let xvals0 := frameCol df x_param
    let xvals := if use_celsius && unitHasDegF x_unit then xvals0.map f2c else xvals0
    let groups := paramUnits selected
    match existing with
    | some old =>
      if !old.traces.isEmpty then
        some { panels := old.panels ++ groupLabels use_celsius groups
               traces := old.traces ++
                 groupTraces df xvals use_celsius f2c groups old.panels.length }
      else
        some { panels := groupLabels use_celsius groups
               traces := groupTraces df xvals use_celsius f2c groups 0 }
    | none =>
      some { panels := groupLabels use_celsius groups
             traces := groupTraces df xvals use_celsius f2c groups 0 }

/-! ## Helper lemmas -/

/-- Unfolding of loadData when the header read fails. -/
theorem loadData_header_error (fs : String → Option (List String))
    (inferNumeric : List String → Bool) (st : DataHandler) (path e : String)
    (h : readHeaderLines (fs path) path = Except.error e) :
    loadData fs inferNumeric st path =
      ({ st with log_file_path := some path }, false, e) := by
  unfold loadData
  rw [h]

/-- Unfolding of loadData when the header read succeeds but the table
parse fails. -/
theorem loadData_csv_error (fs : String → Option (List String))
    (inferNumeric : List String → Bool) (st : DataHandler) (path : String)
    (fa : List String × List String) (e : String)
    (h1 : readHeaderLines (fs path) path = Except.ok fa)
    (h2 : readCsv ((fs path).getD []) = Except.error e) :
    loadData fs inferNumeric st path =
      ({ st with log_file_path := some path
                 abbr_to_full := (buildMaps fa.1 fa.2).1
                 full_to_abbr := (buildMaps fa.1 fa.2).2 }, false, e) := by
  unfold loadData
  rw [h1, h2]

/-- Unfolding of loadData on full success. -/
theorem loadData_success (fs : String → Option (List String))
    (inferNumeric : List String → Bool) (st : DataHandler) (path : String)
    (fa : List String × List String) (tbl : Table)
    (h1 : readHeaderLines (fs path) path = Except.ok fa)
    (h2 : readCsv ((fs path).getD []) = Except.ok tbl) :
    loadData fs inferNumeric st path =
      ({ st with log_file_path := some path
                 abbr_to_full := (buildMaps fa.1 fa.2).1
                 full_to_abbr := (buildMaps fa.1 fa.2).2
                 df := some (tbl.filter
                   (fun c => pyStrip c.1 != "" && !(c.1.startsWith "Unnamed:")))
                 numeric_columns :=
                   ((tbl.filter (fun c => pyStrip c.1 != "" && !(c.1.startsWith "Unnamed:"))).filter
                     (fun c => inferNumeric c.2)).map Prod.fst }, true, "") := by
  unfold loadData
  rw [h1, h2]

/-! ## Claims C3, C7, C8, C9, C10 and the concrete counterexamples -/

/-- C3: load_data is total (the try/except catches every failure of the
header read and of the table parse), and each outcome is pinned down: an
erroring header read returns (false, its error text), an erroring table
parse returns (false, its error text), and a load where both steps succeed
returns (true, "").  The two fallible steps are total functions, so these
three cases cover every execution. -/
theorem c3_load_data_total_error_reporting :
    ∀ (fs : String → Option (List String)) (inferNumeric : List String → Bool)
      (st : DataHandler) (path : String),
      (∀ e, readHeaderLines (fs path) path = Except.error e →
        (loadData fs inferNumeric st path).2 = (false, e)) ∧
      (∀ fa e, readHeaderLines (fs path) path = Except.ok fa →
        readCsv ((fs path).getD []) = Except.error e →
        (loadData fs inferNumeric st path).2 = (false, e)) ∧
      (∀ fa tbl, readHeaderLines (fs path) path = Except.ok fa →
        readCsv ((fs path).getD []) = Except.ok tbl →
        (loadData fs inferNumeric st path).2 = (true, "")) := by
  intro fs inferNumeric st path
  refine ⟨?_, ?_, ?_⟩
  · intro e h1
    rw [loadData_header_error fs inferNumeric st path e h1]
  · intro fa e h1 h2
    rw [loadData_csv_error fs inferNumeric st path fa e h1 h2]
  · intro fa tbl h1 h2
    rw [loadData_success fs inferNumeric st path fa tbl h1 h2]

/-- Witness for C3: loading a missing file returns false with the error
text, and loading a well-formed concrete file returns (true, ""). -/
theorem c3_witness :
    (loadData (fun _ => none) (fun _ => true) initDataHandler "missing.csv").2 =
      (false, "No such file or directory: " ++ "missing.csv") ∧
    (loadData (fun _ => some ["hdr", "A,B", "a,b", "1,2"]) (fun _ => true)
        initDataHandler "log.csv").2 = (true, "") := by
  constructor
  · exact (c3_load_data_total_error_reporting (fun _ => none) (fun _ => true)
      initDataHandler "missing.csv").1 _ rfl
  · exact (c3_load_data_total_error_reporting
      (fun _ => some ["hdr", "A,B", "a,b", "1,2"]) (fun _ => true)
      initDataHandler "log.csv").2.2 (["A", "B"], ["a", "b"])
      [("a", ["1"]), ("b", ["2"])] rfl rfl

/-- C7: the Celsius-to-Fahrenheit conversion (modelled from the spec, the
repository defining only fahrenheit_to_celsius) inverts the repository's
fahrenheit_to_celsius exactly over the rationals, hence within any
floating-point tolerance. -/
theorem c7_conversion_round_trip :
    ∀ x : ℚ, celsius_to_fahrenheit (fahrenheit_to_celsius x) = x := by
  intro x
  unfold celsius_to_fahrenheit fahrenheit_to_celsius
  ring

/-- C8: get_column_data returns none when no data is loaded or the name is
not a column, and returns the stored column data when the name is a column;
being a total function of the model it never raises. -/
theorem c8_get_column_data_safe :
    ∀ (st : DataHandler) (column_name : String),
      (st.df = none → get_column_data st column_name = none) ∧
      (∀ t : Table, st.df = some t →
        ((column_name ∈ t.map Prod.fst → False) →
          get_column_data st column_name = none) ∧
        (column_name ∈ t.map Prod.fst →
          ∃ v, get_column_data st column_name = some v ∧
            dictGet? t column_name = some v)) := by
  intro st column_name
  constructor
  · intro h
    unfold get_column_data
    rw [h]
  · intro t ht
    constructor
    · intro hnot
      unfold get_column_data
      rw [ht]
      have hc : (t.map Prod.fst).contains column_name = false := by
        rw [Bool.eq_false_iff]
        intro hcon
        exact hnot (List.elem_iff.mp hcon)
      simp only [hc]
      simp
    · intro hmem
      have hc : (t.map Prod.fst).contains column_name = true := List.elem_iff.mpr hmem
      have hsome : (dictGet? t column_name).isSome = true := by
        rcases List.mem_map.mp hmem with ⟨p, hp, hpe⟩
        have hfind : (t.find? (fun q => q.1 == column_name)).isSome = true := by
          rw [List.find?_isSome]
          exact ⟨p, hp, by simp [hpe]⟩
        unfold dictGet?
        simpa using hfind
      rcases Option.isSome_iff_exists.mp hsome with ⟨v, hv⟩
      refine ⟨v, ?_, hv⟩
      unfold get_column_data
      rw [ht]
      simp only [hc]
      simpa using hv

/-- C9: load_data records the requested path unconditionally (the
assignment precedes any fallible step), and when the failure happens while
reading the header lines, before the mappings are rebuilt, both name
mappings keep their previous contents. -/
theorem c9_load_data_keeps_state :
    ∀ (fs : String → Option (List String)) (inferNumeric : List String → Bool)
      (st : DataHandler) (path : String),
      (loadData fs inferNumeric st path).1.log_file_path = some path ∧
      (∀ e, readHeaderLines (fs path) path = Except.error e →
        (loadData fs inferNumeric st path).1.abbr_to_full = st.abbr_to_full ∧
        (loadData fs inferNumeric st path).1.full_to_abbr = st.full_to_abbr) := by
  intro fs inferNumeric st path
  constructor
  · cases h1 : readHeaderLines (fs path) path with
    | error e =>
      rw [loadData_header_error fs inferNumeric st path e h1]
    | ok fa =>
      cases h2 : readCsv ((fs path).getD []) with
      | error e =>
        rw [loadData_csv_error fs inferNumeric st path fa e h1 h2]
      | ok tbl =>
        rw [loadData_success fs inferNumeric st path fa tbl h1 h2]
  · intro e h1
    rw [loadData_header_error fs inferNumeric st path e h1]
    exact ⟨rfl, rfl⟩

/-- Witness for C9: a missing file fails the load, the path is recorded,
and the mappings of the previous load survive. -/
theorem c9_witness :
    (loadData (fun _ => none) (fun _ => true)
        { initDataHandler with
            abbr_to_full := [("E1 OilT", "Oil Temp (deg F)")]
            full_to_abbr := [("Oil Temp (deg F)", "E1 OilT")] }
        "missing.csv").1.log_file_path = some "missing.csv" ∧
    (loadData (fun _ => none) (fun _ => true)
        { initDataHandler with
            abbr_to_full := [("E1 OilT", "Oil Temp (deg F)")]
            full_to_abbr := [("Oil Temp (deg F)", "E1 OilT")] }
        "missing.csv").1.abbr_to_full = [("E1 OilT", "Oil Temp (deg F)")] := by
  have h := c9_load_data_keeps_state (fun _ => none) (fun _ => true)
    { initDataHandler with
        abbr_to_full := [("E1 OilT", "Oil Temp (deg F)")]
        full_to_abbr := [("Oil Temp (deg F)", "E1 OilT")] }
    "missing.csv"
  exact ⟨h.1, (h.2 ("No such file or directory: " ++ "missing.csv") rfl).1⟩

/-- C10: get_display_names yields one (display name, column name) pair per
loaded column in column order, the display name being the abbr_to_full
image when present and the column name itself otherwise; with no data it
yields the empty list. -/
theorem c10_get_display_names :
    ∀ st : DataHandler,
      (st.df = none → get_display_names st = []) ∧
      (∀ t : Table, st.df = some t →
        (get_display_names st).length = t.length ∧
        (∀ (i : Nat) (col : String), (t.map Prod.fst).get? i = some col →
          (get_display_names st).get? i =
            some ((dictGet? st.abbr_to_full col).getD col, col))) := by
  intro st
  constructor
  · intro h
    unfold get_display_names
    rw [h]
  · intro t ht
    have hd : get_display_names st =
        (t.map Prod.fst).map (fun col =>
          (match dictGet? st.abbr_to_full col with
           | some full => full
           | none => col, col)) := by
      unfold get_display_names get_all_columns
      rw [ht]
    constructor
    · rw [hd]
      simp
    · intro i col hi
      rw [hd, List.get?_map, hi]
      cases hg : dictGet? st.abbr_to_full col <;> simp [hg]

/-- Witness for C10: on a concrete loaded state the first display pair uses
the mapping and a column outside the mapping displays as itself. -/
theorem c10_witness :
    (get_display_names
        { initDataHandler with
            df := some [("E1 OilT", ["10"]), ("Time", ["1"])]
            abbr_to_full := [("E1 OilT", "Oil Temp (deg F)")] }).length = 2 ∧
    (get_display_names
        { initDataHandler with
            df := some [("E1 OilT", ["10"]), ("Time", ["1"])]
            abbr_to_full := [("E1 OilT", "Oil Temp (deg F)")] }).get? 1 =
      some ("Time", "Time") := by
  have h := (c10_get_display_names
    { initDataHandler with
        df := some [("E1 OilT", ["10"]), ("Time", ["1"])]
        abbr_to_full := [("E1 OilT", "Oil Temp (deg F)")] }).2
    [("E1 OilT", ["10"]), ("Time", ["1"])] rfl
  refine ⟨h.1, ?_⟩
  have h2 := h.2 1 "Time" (by decide)
  rw [h2]
  decide

/-- Witness for C8: on a concrete state a present column returns its data
and an absent column returns none. -/
theorem c8_witness :
    get_column_data
        { initDataHandler with df := some [("E1 OilT", ["10", "11"])] }
        "E1 OilT" = some ["10", "11"] ∧
    get_column_data
        { initDataHandler with df := some [("E1 OilT", ["10", "11"])] }
        "absent" = none := by
  have h := (c8_get_column_data_safe
    { initDataHandler with df := some [("E1 OilT", ["10", "11"])] } "E1 OilT").2
    [("E1 OilT", ["10", "11"])] rfl
  have h2 := (c8_get_column_data_safe
    { initDataHandler with df := some [("E1 OilT", ["10", "11"])] } "absent").2
    [("E1 OilT", ["10", "11"])] rfl
  constructor
  · rcases h.2 (by decide) with ⟨v, hv, hv2⟩
    have hcalc : dictGet? [("E1 OilT", ["10", "11"])] "E1 OilT" = some ["10", "11"] := by
      decide
    have hveq : v = ["10", "11"] := Option.some.inj (hv2.symm.trans hcalc)
    exact hveq ▸ hv
  · exact h2.1 (by decide)

/-- Counterexample for C4: the name ")(" contains both parenthesis
characters but no parenthesized suffix, yet extract_unit returns the empty
string rather than "Unknown", so the claimed dichotomy fails. -/
theorem c4_counterexample :
    extract_unit ")(" = "" ∧ extract_unit ")(" ≠ "Unknown" := by
  constructor
  · decide
  · decide

/-- Counterexample for C6: adding a parameter whose unit already has a
panel in the existing figure of the current tab produces two panels
labelled with that same unit, so the chart does not have exactly one panel
per distinct unit of the plotted columns. -/
theorem c6_counterexample :
    (generate_plot [("p2", [1]), ("x", [0])] [("p2", "T2 (deg F)")] "x" "x"
        false (fun q => q)
        (some { panels := ["deg F"]
                traces := [{ name := "T1 (deg F)", xvals := [], yvals := [], row := 1 }] })).map
        Fig.panels = some ["deg F", "deg F"] ∧
    ¬ (["deg F", "deg F"] : List String).Nodup := by
  constructor
  · decide
  · decide

/-! ## Machinery for C1 and C2: the name mappings -/

/-- Keys of an appended dict. -/
theorem dictKeys_append {α : Type} (d e : Dict α) :
    dictKeys (d ++ e) = dictKeys d ++ dictKeys e := by
  unfold dictKeys
  exact List.map_append Prod.fst d e

/-- Inserting a fresh key appends the binding. -/
theorem dictInsert_of_not_mem {α : Type} (d : Dict α) (k : String) (v : α)
    (h : k ∉ dictKeys d) : dictInsert d k v = d ++ [(k, v)] := by
  unfold dictInsert
  rw [if_neg]
  intro hc
  exact h (List.elem_iff.mp hc)

/-- Folding dictInsert over pairs with globally distinct keys just appends
the pairs. -/
theorem foldl_dictInsert_eq_append :
    ∀ (ps : List (String × String)) (d : Dict String),
      (dictKeys d ++ ps.map Prod.fst).Nodup →
      ps.foldl (fun d p => dictInsert d p.1 p.2) d = d ++ ps := by
  intro ps
  induction ps with
  | nil =>
    intro d _
    simp
  | cons p rest ih =>
    intro d h
    have hsplit := List.nodup_append.mp h
    have hk : p.1 ∉ dictKeys d := by
      intro hmem
      exact hsplit.2.2 hmem (List.mem_cons_self p.1 (rest.map Prod.fst))
    rw [List.foldl_cons, dictInsert_of_not_mem d p.1 p.2 hk, ih (d ++ [p]) ?_]
    · rw [List.append_assoc]
      rfl
    · rw [dictKeys_append]
      have : (dictKeys d ++ dictKeys [p]) ++ rest.map Prod.fst =
          dictKeys d ++ (p.1 :: rest.map Prod.fst) := by
        rw [List.append_assoc]
        rfl
      rw [this]
      exact h

/-- A successful dict lookup comes from a binding of the dict with that
key. -/
theorem dictGet?_eq_some_imp_mem {α : Type} (d : Dict α) (k : String) (v : α)
    (h : dictGet? d k = some v) : (k, v) ∈ d := by
  unfold dictGet? at h
  rcases Option.map_eq_some'.mp h with ⟨p, hp, hpv⟩
  have hmem := List.mem_of_find?_eq_some hp
  have hpred := List.find?_some hp
  have hk : p.1 = k := by simpa using hpred
  have : p = (k, v) := by
    cases p
    simp only at hk hpv
    rw [hk, hpv]
  rw [← this]
  exact hmem

/-- With duplicate-free keys, every binding is found by lookup. -/
theorem dictGet?_of_mem_nodup {α : Type} :
    ∀ (d : Dict α), (dictKeys d).Nodup → ∀ (k : String) (v : α),
      (k, v) ∈ d → dictGet? d k = some v := by
  intro d
  induction d with
  | nil =>
    intro _ k v hmem
    cases hmem
  | cons q rest ih =>
    intro hnd k v hmem
    have hnd' := hnd
    rw [dictKeys, List.map_cons, List.nodup_cons] at hnd'
    rcases List.mem_cons.mp hmem with hq | hrest
    · rw [← hq]
      unfold dictGet?
      rw [List.find?_cons_of_pos _ (by simp)]
      simp
    · have hne : ¬ (q.1 == k) = true := by
        intro hbeq
        apply hnd'.1
        have hkeq : q.1 = k := by simpa using hbeq
        rw [hkeq]
        exact List.mem_map_of_mem Prod.fst hrest
      unfold dictGet?
      rw [List.find?_cons_of_neg]
      · exact ih hnd'.2 k v hrest
      · exact hne

/-- buildMaps is the pair of folds of dictInsert over the valid pairs. -/
theorem buildMaps_eq_foldl (full_names abbr_names : List String) :
    buildMaps full_names abbr_names =
      ((validPairs full_names abbr_names).foldl (fun d p => dictInsert d p.1 p.2) [],
       (validPairs full_names abbr_names).foldl (fun d p => dictInsert d p.2 p.1) []) := by
  unfold buildMaps validPairs
  rw [List.foldl_map, List.foldl_map]
  have hsplit :
      ∀ (l : List Nat) (b c : Dict String),
        l.foldl (fun m i =>
          (dictInsert m.1 (validPair full_names abbr_names i).1
              (validPair full_names abbr_names i).2,
           dictInsert m.2 (validPair full_names abbr_names i).2
              (validPair full_names abbr_names i).1)) (b, c) =
        (l.foldl (fun d i =>
            dictInsert d (validPair full_names abbr_names i).1
              (validPair full_names abbr_names i).2) b,
         l.foldl (fun d i =>
            dictInsert d (validPair full_names abbr_names i).2
              (validPair full_names abbr_names i).1) c) := by
    intro l
    induction l with
    | nil => intro b c; rfl
    | cons x xs ih => intro b c; rw [List.foldl_cons, List.foldl_cons, List.foldl_cons, ih]
  exact hsplit (validColumns abbr_names) [] []

/-- With duplicate-free abbreviated names, abbr_to_full is exactly the
valid-pair association list. -/
theorem buildMaps_fst_eq (full_names abbr_names : List String)
    (ha : ((validPairs full_names abbr_names).map Prod.fst).Nodup) :
    (buildMaps full_names abbr_names).1 = validPairs full_names abbr_names := by
  rw [buildMaps_eq_foldl]
  have h := foldl_dictInsert_eq_append (validPairs full_names abbr_names) []
    (by simpa [dictKeys] using ha)
  simpa using h

/-- With duplicate-free effective full names, full_to_abbr is exactly the
swapped valid-pair association list. -/
theorem buildMaps_snd_eq (full_names abbr_names : List String)
    (hf : ((validPairs full_names abbr_names).map Prod.snd).Nodup) :
    (buildMaps full_names abbr_names).2 =
      (validPairs full_names abbr_names).map Prod.swap := by
  rw [buildMaps_eq_foldl]
  have hrw : (validPairs full_names abbr_names).foldl
      (fun d p => dictInsert d p.2 p.1) [] =
      ((validPairs full_names abbr_names).map Prod.swap).foldl
        (fun d p => dictInsert d p.1 p.2) [] := by
    rw [List.foldl_map]
    rfl
  rw [hrw]
  have hkeys : (dictKeys ([] : Dict String) ++
      (((validPairs full_names abbr_names).map Prod.swap).map Prod.fst)).Nodup := by
    simpa [dictKeys, List.map_map, Function.comp] using hf
  have h := foldl_dictInsert_eq_append
    ((validPairs full_names abbr_names).map Prod.swap) [] hkeys
  simpa using h

/-- C1: for a CSV whose three-line preamble is readable and whose valid
columns carry duplicate-free abbreviated names and duplicate-free effective
full names (the well-formed case), the two mappings load_data builds are
mutual inverses: each successful lookup in one is undone by the other. -/
theorem c1_mappings_mutual_inverse
    (fs : String → Option (List String)) (inferNumeric : List String → Bool)
    (st : DataHandler) (path l0 l1 l2 : String) (rest : List String)
    (hfs : fs path = some (l0 :: l1 :: l2 :: rest))
    (ha : ((validPairs (splitComma (pyStrip l1)) (splitComma (pyStrip l2))).map
      Prod.fst).Nodup)
    (hf : ((validPairs (splitComma (pyStrip l1)) (splitComma (pyStrip l2))).map
      Prod.snd).Nodup) :
    (∀ a f, dictGet? (loadData fs inferNumeric st path).1.abbr_to_full a = some f →
       dictGet? (loadData fs inferNumeric st path).1.full_to_abbr f = some a) ∧
    (∀ f a, dictGet? (loadData fs inferNumeric st path).1.full_to_abbr f = some a →
       dictGet? (loadData fs inferNumeric st path).1.abbr_to_full a = some f) := by
  have h1 : readHeaderLines (fs path) path =
      Except.ok (splitComma (pyStrip l1), splitComma (pyStrip l2)) := by
    rw [hfs]
    rfl
  have hmaps : (loadData fs inferNumeric st path).1.abbr_to_full =
      (buildMaps (splitComma (pyStrip l1)) (splitComma (pyStrip l2))).1 ∧
      (loadData fs inferNumeric st path).1.full_to_abbr =
      (buildMaps (splitComma (pyStrip l1)) (splitComma (pyStrip l2))).2 := by
    cases h2 : readCsv ((fs path).getD []) with
    | error e =>
      rw [loadData_csv_error fs inferNumeric st path _ e h1 h2]
      exact ⟨rfl, rfl⟩
    | ok tbl =>
      rw [loadData_success fs inferNumeric st path _ tbl h1 h2]
      exact ⟨rfl, rfl⟩
  rw [hmaps.1, hmaps.2, buildMaps_fst_eq _ _ ha, buildMaps_snd_eq _ _ hf]
  constructor
  · intro a f h
    have hmem := dictGet?_eq_some_imp_mem _ _ _ h
    apply dictGet?_of_mem_nodup
    · simpa [dictKeys, List.map_map, Function.comp] using hf
    · exact List.mem_map_of_mem Prod.swap hmem
  · intro f a h
    have hmem := dictGet?_eq_some_imp_mem _ _ _ h
    rcases List.mem_map.mp hmem with ⟨p, hp, hpe⟩
    have hpa : p = (a, f) := by
      cases p with
      | mk x y =>
        have h1 : y = f := congrArg Prod.fst hpe
        have h2 : x = a := congrArg Prod.snd hpe
        rw [h1, h2]
    apply dictGet?_of_mem_nodup
    · simpa [dictKeys] using ha
    · exact hpa ▸ hp

/-- Witness for C1: a concrete two-column log file whose mappings invert
each other on the oil-temperature column. -/
theorem c1_witness :
    dictGet? (loadData
        (fun _ => some ["hdr", "Lcl Date,Oil Temp (deg F)", "Lcl Date,E1 OilT", "x,1"])
        (fun _ => true) initDataHandler "log.csv").1.full_to_abbr
      "Oil Temp (deg F)" = some "E1 OilT" := by
  have h := c1_mappings_mutual_inverse
    (fun _ => some ["hdr", "Lcl Date,Oil Temp (deg F)", "Lcl Date,E1 OilT", "x,1"])
    (fun _ => true) initDataHandler "log.csv"
    "hdr" "Lcl Date,Oil Temp (deg F)" "Lcl Date,E1 OilT" ["x,1"]
    rfl (by decide) (by decide)
  exact h.1 "E1 OilT" "Oil Temp (deg F)" (by decide)

/-- dictInsert preserves a property of all bindings when the inserted one
has it. -/
theorem dictInsert_forall {α : Type} (P : String × α → Prop) (d : Dict α)
    (k : String) (v : α) (hd : ∀ p ∈ d, P p) (hkv : P (k, v)) :
    ∀ p ∈ dictInsert d k v, P p := by
  intro p hp
  unfold dictInsert at hp
  by_cases hc : (dictKeys d).contains k
  · rw [if_pos hc] at hp
    rcases List.mem_map.mp hp with ⟨q, hq, hqe⟩
    by_cases hqk : (q.1 == k) = true
    · rw [if_pos hqk] at hqe
      rw [← hqe]
      exact hkv
    · rw [if_neg hqk] at hqe
      rw [← hqe]
      exact hd q hq
  · rw [if_neg hc] at hp
    rcases List.mem_append.mp hp with h | h
    · exact hd p h
    · rcases List.mem_singleton.mp h with rfl
      exact hkv

/-- Folding dictInsert over a pair list preserves a binding property. -/
theorem foldl_dictInsert_forall (P : String × String → Prop) :
    ∀ (ps : List (String × String)) (d : Dict String),
      (∀ p ∈ d, P p) → (∀ p ∈ ps, P p) →
      ∀ q ∈ ps.foldl (fun d p => dictInsert d p.1 p.2) d, P q := by
  intro ps
  induction ps with
  | nil =>
    intro d hd _ q hq
    exact hd q hq
  | cons p rest ih =>
    intro d hd hps q hq
    rw [List.foldl_cons] at hq
    refine ih (dictInsert d p.1 p.2) ?_ (fun r hr => hps r (List.mem_cons_of_mem p hr)) q hq
    exact dictInsert_forall P d p.1 p.2 hd (by
      have := hps p (List.mem_cons_self p rest)
      simpa using this)

/-- Every valid pair has a non-whitespace abbreviated name and a
non-whitespace effective full name. -/
theorem validPairs_strip_ne (full_names abbr_names : List String) :
    ∀ p ∈ validPairs full_names abbr_names, pyStrip p.1 ≠ "" ∧ pyStrip p.2 ≠ "" := by
  intro p hp
  rcases List.mem_map.mp hp with ⟨i, hi, hie⟩
  unfold validColumns at hi
  rcases List.mem_map.mp hi with ⟨q, hq, hqe⟩
  have hqmem := List.mem_filter.mp hq
  have hqstrip : pyStrip q.2 ≠ "" := by
    have := hqmem.2
    simpa using this
  have hqget : abbr_names.getD q.1 "" = q.2 := by
    have := List.mk_mem_enum_iff_get?.mp hqmem.1
    unfold List.getD
    rw [this]
    rfl
  have habbr : (validPair full_names abbr_names i).1 = q.2 := by
    rw [← hqe]
    unfold validPair
    simpa using hqget
  have hfull : pyStrip (validPair full_names abbr_names i).2 ≠ "" := by
    unfold validPair
    simp only
    by_cases hcase : pyStrip (if i < full_names.length then full_names.getD i "" else "") = ""
    · rw [if_pos hcase]
      rw [← hqe] at habbr ⊢
      unfold validPair at habbr
      simp only at habbr
      rw [habbr]
      exact hqstrip
    · rw [if_neg hcase]
      exact hcase
  rw [← hie]
  constructor
  · rw [habbr]
    exact hqstrip
  · exact hfull

/-- Folding the swapped dictInsert preserves a binding property stated on
the swapped pairs. -/
theorem foldl_dictInsert_swap_forall (P : String × String → Prop)
    (ps : List (String × String)) (d : Dict String)
    (hd : ∀ p ∈ d, P p) (hps : ∀ p ∈ ps, P (p.2, p.1)) :
    ∀ q ∈ ps.foldl (fun d p => dictInsert d p.2 p.1) d, P q := by
  have hrw : ps.foldl (fun d p => dictInsert d p.2 p.1) d =
      (ps.map Prod.swap).foldl (fun d p => dictInsert d p.1 p.2) d := by
    rw [List.foldl_map]
    rfl
  rw [hrw]
  apply foldl_dictInsert_forall P (ps.map Prod.swap) d hd
  intro p hp
  rcases List.mem_map.mp hp with ⟨q, hq, hqe⟩
  rw [← hqe]
  exact hps q hq

/-- C2: after a successful load every binding of either mapping has a
non-whitespace key and value (so a column whose abbreviated name is empty
or whitespace-only occurs in neither mapping), and every column kept in the
table has a non-whitespace name that is not an auto-generated
"Unnamed:" name. -/
theorem c2_empty_abbr_columns_excluded
    (fs : String → Option (List String)) (inferNumeric : List String → Bool)
    (st : DataHandler) (path : String)
    (h : (loadData fs inferNumeric st path).2.1 = true) :
    (∀ k v, (k, v) ∈ (loadData fs inferNumeric st path).1.abbr_to_full →
      pyStrip k ≠ "" ∧ pyStrip v ≠ "") ∧
    (∀ k v, (k, v) ∈ (loadData fs inferNumeric st path).1.full_to_abbr →
      pyStrip k ≠ "" ∧ pyStrip v ≠ "") ∧
    (∀ t : Table, (loadData fs inferNumeric st path).1.df = some t →
      ∀ c ∈ t.map Prod.fst, pyStrip c ≠ "" ∧ c.startsWith "Unnamed:" = false) := by
  cases h1 : readHeaderLines (fs path) path with
  | error e =>
    rw [loadData_header_error fs inferNumeric st path e h1] at h
    simp at h
  | ok fa =>
    cases h2 : readCsv ((fs path).getD []) with
    | error e =>
      rw [loadData_csv_error fs inferNumeric st path fa e h1 h2] at h
      simp at h
    | ok tbl =>
      have hld := loadData_success fs inferNumeric st path fa tbl h1 h2
      rw [hld]
      refine ⟨?_, ?_, ?_⟩
      · intro k v hkv
        have hkv2 : (k, v) ∈ (validPairs fa.1 fa.2).foldl
            (fun d p => dictInsert d p.1 p.2) [] := by
          have hb := congrArg Prod.fst (buildMaps_eq_foldl fa.1 fa.2)
          simp only at hb
          rw [← hb]
          exact hkv
        exact foldl_dictInsert_forall
          (fun p => pyStrip p.1 ≠ "" ∧ pyStrip p.2 ≠ "")
          (validPairs fa.1 fa.2) [] (by simp)
          (validPairs_strip_ne fa.1 fa.2) (k, v) hkv2
      · intro k v hkv
        have hkv2 : (k, v) ∈ (validPairs fa.1 fa.2).foldl
            (fun d p => dictInsert d p.2 p.1) [] := by
          have hb := congrArg Prod.snd (buildMaps_eq_foldl fa.1 fa.2)
          simp only at hb
          rw [← hb]
          exact hkv
        refine foldl_dictInsert_swap_forall
          (fun p => pyStrip p.1 ≠ "" ∧ pyStrip p.2 ≠ "")
          (validPairs fa.1 fa.2) [] (by simp) ?_ (k, v) hkv2
        intro p hp
        exact (validPairs_strip_ne fa.1 fa.2 p hp).symm
      · intro t ht c hc
        have ht2 : tbl.filter
            (fun c => pyStrip c.1 != "" && !(c.1.startsWith "Unnamed:")) = t :=
          Option.some.inj ht
        rw [← ht2] at hc
        rcases List.mem_map.mp hc with ⟨col, hcol, hce⟩
        have hpred := (List.mem_filter.mp hcol).2
        rcases (Bool.and_eq_true _ _).mp hpred with ⟨hp1, hp2⟩
        rw [← hce]
        constructor
        · exact bne_iff_ne.mp hp1
        · simpa using hp2

/-- Witness for C2: a concrete file whose second abbreviated name is a
single space; that column appears in no mapping of the loaded state. -/
theorem c2_witness :
    ¬ ((" ", " ") ∈ (loadData
        (fun _ => some ["hdr", "A,B,Oil Temp (deg F)", "Time, ,E1 OilT", "1,2,3"])
        (fun _ => true) initDataHandler "log.csv").1.abbr_to_full) := by
  intro hmem
  have h := c2_empty_abbr_columns_excluded
    (fun _ => some ["hdr", "A,B,Oil Temp (deg F)", "Time, ,E1 OilT", "1,2,3"])
    (fun _ => true) initDataHandler "log.csv" (by decide)
  exact (h.1 " " " " hmem).1 (by decide)

/-! ## Machinery for C4: extract_unit -/

/-- splitOnChar never returns an empty field list. -/
theorem splitOnChar_ne_nil (c : Char) : ∀ l : List Char, splitOnChar c l ≠ [] := by
  intro l
  induction l with
  | nil =>
    simp [splitOnChar]
  | cons x xs ih =>
    unfold splitOnChar
    by_cases hx : x = c
    · rw [if_pos hx]
      simp
    · rw [if_neg hx]
      cases h : splitOnChar c xs with
      | nil => exact absurd h ih
      | cons y ys => simp

/-- The first field of splitOnChar is the longest longest run of non-separator characters. -/
theorem splitOnChar_head (c : Char) :
    ∀ l : List Char, (splitOnChar c l).getD 0 [] = l.takeWhile (fun x => x != c) := by
  intro l
  induction l with
  | nil =>
    simp [splitOnChar]
  | cons x xs ih =>
    unfold splitOnChar
    by_cases hx : x = c
    · rw [if_pos hx]
      have : (x != c) = false := by simp [hx]
      simp [List.takeWhile_cons, this]
    · rw [if_neg hx]
      have hb : (x != c) = true := by simp [hx]
      cases h : splitOnChar c xs with
      | nil => exact absurd h (splitOnChar_ne_nil c xs)
      | cons y ys =>
        rw [h] at ih
        simp only [List.getD, List.get?] at ih
        simp [List.takeWhile_cons, hb, ← ih]

/-- Splitting at the first separator occurrence isolates the leading segment. -/
theorem splitOnChar_first (c : Char) :
    ∀ (a rest : List Char), c ∉ a →
      splitOnChar c (a ++ c :: rest) = a :: splitOnChar c rest := by
  intro a
  induction a with
  | nil =>
    intro rest _
    rw [List.nil_append]
    simp [splitOnChar]
  | cons x xs ih =>
    intro rest hna
    have hxc : ¬ x = c := by
      intro hx
      exact hna (by rw [hx]; exact List.mem_cons_self c _)
    have hxs : c ∉ xs := fun hm => hna (List.mem_cons_of_mem x hm)
    rw [List.cons_append]
    show splitOnChar c (x :: (xs ++ c :: rest)) = (x :: xs) :: splitOnChar c rest
    rw [splitOnChar, if_neg hxc, ih rest hxs]

/-- Composition of two Boolean takeWhile filters. -/
theorem takeWhile_takeWhile_bool {α : Type} (p q : α → Bool) :
    ∀ l : List α, (l.takeWhile q).takeWhile p = l.takeWhile (fun a => q a && p a) := by
  intro l
  induction l with
  | nil => rfl
  | cons x xs ih =>
    by_cases hq : q x = true
    · by_cases hp : p x = true
      · simp [List.takeWhile_cons, hq, hp, ih]
      · simp [List.takeWhile_cons, hq, Bool.eq_false_iff.mpr hp]
    · simp [List.takeWhile_cons, Bool.eq_false_iff.mpr hq]

/-- C4 (amended): extract_unit of the example name is "deg F"; a name
missing either parenthesis character yields "Unknown"; and for any name
containing both, the result is the run of characters strictly after the
first opening parenthesis up to the first subsequent parenthesis character
of either kind, which is the unit text whenever the name has a well-formed
parenthesized group. -/
theorem c4_amended_extract_unit :
    extract_unit "Oil Temp (deg F)" = "deg F" ∧
    (∀ s : String, ('(' ∉ s.data ∨ ')' ∉ s.data) → extract_unit s = "Unknown") ∧
    (∀ a rest : List Char, '(' ∉ a → ')' ∈ a ∨ ')' ∈ rest →
      extract_unit (String.mk (a ++ '(' :: rest)) =
        String.mk (rest.takeWhile (fun ch => ch != '(' && ch != ')'))) := by
  refine ⟨by decide, ?_, ?_⟩
  · intro s hs
    unfold extract_unit
    rw [if_neg]
    intro hcond
    rcases (Bool.and_eq_true _ _).mp hcond with ⟨h1, h2⟩
    rcases hs with hs | hs
    · exact hs (List.elem_iff.mp h1)
    · exact hs (List.elem_iff.mp h2)
  · intro a rest hna hr
    unfold extract_unit
    rw [if_pos]
    · have hsplit : splitOnChar '(' (String.mk (a ++ '(' :: rest)).data =
          a :: splitOnChar '(' rest := splitOnChar_first '(' a rest hna
      rw [hsplit]
      have hget : (a :: splitOnChar '(' rest).getD 1 [] =
          (splitOnChar '(' rest).getD 0 [] := rfl
      rw [hget, splitOnChar_head '(' rest, splitOnChar_head ')' _,
        takeWhile_takeWhile_bool]
    · apply (Bool.and_eq_true _ _).mpr
      constructor
      · apply List.elem_iff.mpr
        exact List.mem_append.mpr (Or.inr (List.mem_cons_self '(' rest))
      · apply List.elem_iff.mpr
        rcases hr with hr | hr
        · exact List.mem_append.mpr (Or.inl hr)
        · exact List.mem_append.mpr (Or.inr (List.mem_cons_of_mem '(' hr))

/-- Witness for C4 (amended): a parenthesis-free name maps to "Unknown". -/
theorem c4_amended_witness : extract_unit "Oil Temp" = "Unknown" :=
  c4_amended_extract_unit.2.1 "Oil Temp" (Or.inl (by decide))

/-! ## Machinery for C5 and C6: unit grouping -/

/-- Pushing a value creates or extends a bucket keyed by the pushed key. -/
theorem dictPush_self {α : Type} (d : Dict (List α)) (k : String) (v : α) :
    ∃ g, g ∈ dictPush d k v ∧ g.1 = k ∧ v ∈ g.2 := by
  unfold dictPush
  by_cases hc : (dictKeys d).contains k
  · rw [if_pos hc]
    have hk : k ∈ dictKeys d := List.elem_iff.mp hc
    rcases List.mem_map.mp hk with ⟨g0, hg0, hg0e⟩
    refine ⟨(g0.1, g0.2 ++ [v]), ?_, hg0e, by simp⟩
    have : (if g0.1 == k then (g0.1, g0.2 ++ [v]) else g0) = (g0.1, g0.2 ++ [v]) := by
      rw [if_pos]
      simp [hg0e]
    rw [← this]
    exact List.mem_map_of_mem _ hg0
  · rw [if_neg hc]
    exact ⟨(k, [v]), List.mem_append.mpr (Or.inr (by simp)), rfl, by simp⟩

/-- Pushing never removes an existing bucket member. -/
theorem dictPush_preserve {α : Type} (d : Dict (List α)) (k : String) (v : α)
    (k0 : String) (v0 : α) (h : ∃ g, g ∈ d ∧ g.1 = k0 ∧ v0 ∈ g.2) :
    ∃ g, g ∈ dictPush d k v ∧ g.1 = k0 ∧ v0 ∈ g.2 := by
  rcases h with ⟨g, hg, hk, hv⟩
  unfold dictPush
  by_cases hc : (dictKeys d).contains k
  · rw [if_pos hc]
    by_cases hbeq : (g.1 == k) = true
    · refine ⟨(g.1, g.2 ++ [v]), ?_, hk, List.mem_append.mpr (Or.inl hv)⟩
      have : (if g.1 == k then (g.1, g.2 ++ [v]) else g) = (g.1, g.2 ++ [v]) := if_pos hbeq
      rw [← this]
      exact List.mem_map_of_mem _ hg
    · refine ⟨g, ?_, hk, hv⟩
      have : (if g.1 == k then (g.1, g.2 ++ [v]) else g) = g := if_neg hbeq
      rw [← this]
      exact List.mem_map_of_mem _ hg
  · rw [if_neg hc]
    exact ⟨g, List.mem_append.mpr (Or.inl hg), hk, hv⟩

/-- The unit-grouping fold keeps every existing bucket member. -/
theorem foldl_paramUnits_preserve :
    ∀ (sel : List (String × String)) (d : Dict (List (String × String)))
      (k0 : String) (v0 : String × String),
      (∃ g, g ∈ d ∧ g.1 = k0 ∧ v0 ∈ g.2) →
      ∃ g, g ∈ sel.foldl (fun d pd => dictPush d (extract_unit pd.2) pd) d ∧
        g.1 = k0 ∧ v0 ∈ g.2 := by
  intro sel
  induction sel with
  | nil =>
    intro d k0 v0 h
    exact h
  | cons q rest ih =>
    intro d k0 v0 h
    rw [List.foldl_cons]
    exact ih _ k0 v0 (dictPush_preserve d (extract_unit q.2) q k0 v0 h)

/-- Every selected pair ends up in the bucket of its extracted unit. -/
theorem paramUnits_mem_bucket :
    ∀ (sel : List (String × String)) (d : Dict (List (String × String)))
      (pd : String × String), pd ∈ sel →
      ∃ g, g ∈ sel.foldl (fun d pd => dictPush d (extract_unit pd.2) pd) d ∧
        g.1 = extract_unit pd.2 ∧ pd ∈ g.2 := by
  intro sel
  induction sel with
  | nil =>
    intro d pd hpd
    exact absurd hpd (List.not_mem_nil pd)
  | cons q rest ih =>
    intro d pd hpd
    rw [List.foldl_cons]
    rcases List.mem_cons.mp hpd with hq | hrest
    · rw [hq]
      exact foldl_paramUnits_preserve rest _ _ q
        (dictPush_self d (extract_unit q.2) q)
    · exact ih _ pd hrest

/-- Keys after a push: unchanged for an existing key, appended otherwise. -/
theorem dictKeys_dictPush {α : Type} (d : Dict (List α)) (k : String) (v : α) :
    dictKeys (dictPush d k v) =
      if (dictKeys d).contains k then dictKeys d else dictKeys d ++ [k] := by
  unfold dictPush
  by_cases hc : (dictKeys d).contains k
  · rw [if_pos hc, if_pos hc]
    unfold dictKeys
    rw [List.map_map]
    apply List.map_congr_left
    intro g _
    by_cases hbeq : (g.1 == k) = true
    · simp [Function.comp, hbeq]
    · simp [Function.comp, hbeq]
  · rw [if_neg hc, if_neg hc]
    exact dictKeys_append d [(k, [v])]

/-- The unit-grouping fold keeps the bucket keys duplicate-free. -/
theorem foldl_paramUnits_nodup :
    ∀ (sel : List (String × String)) (d : Dict (List (String × String))),
      (dictKeys d).Nodup →
      (dictKeys (sel.foldl (fun d pd => dictPush d (extract_unit pd.2) pd) d)).Nodup := by
  intro sel
  induction sel with
  | nil =>
    intro d hd
    exact hd
  | cons q rest ih =>
    intro d hd
    rw [List.foldl_cons]
    apply ih
    rw [dictKeys_dictPush]
    by_cases hc : (dictKeys d).contains (extract_unit q.2)
    · rw [if_pos hc]
      exact hd
    · rw [if_neg hc]
      apply List.Nodup.append hd (List.nodup_singleton _)
      intro u hu hu2
      rcases List.mem_singleton.mp hu2 with rfl
      exact (Bool.eq_false_iff.mp (Bool.eq_false_iff.mpr hc ▸ rfl) : _) (List.elem_iff.mpr hu)

/-- Key membership after a push. -/
theorem dictKeys_dictPush_mem {α : Type} (d : Dict (List α)) (k : String) (v : α)
    (u : String) :
    u ∈ dictKeys (dictPush d k v) ↔ u ∈ dictKeys d ∨ u = k := by
  rw [dictKeys_dictPush]
  by_cases hc : (dictKeys d).contains k
  · rw [if_pos hc]
    constructor
    · exact Or.inl
    · intro h
      rcases h with h | h
      · exact h
      · rw [h]
        exact List.elem_iff.mp hc
  · rw [if_neg hc]
    rw [List.mem_append, List.mem_singleton]

/-- The bucket keys of the grouping fold are the base keys together with
the extracted units of the processed pairs. -/
theorem foldl_paramUnits_keys_mem :
    ∀ (sel : List (String × String)) (d : Dict (List (String × String)))
      (u : String),
      u ∈ dictKeys (sel.foldl (fun d pd => dictPush d (extract_unit pd.2) pd) d) ↔
        u ∈ dictKeys d ∨ ∃ pd, pd ∈ sel ∧ extract_unit pd.2 = u := by
  intro sel
  induction sel with
  | nil =>
    intro d u
    simp
  | cons q rest ih =>
    intro d u
    rw [List.foldl_cons, ih, dictKeys_dictPush_mem]
    constructor
    · intro h
      rcases h with (h | h) | h
      · exact Or.inl h
      · exact Or.inr ⟨q, List.mem_cons_self q rest, h.symm⟩
      · rcases h with ⟨pd, hpd, hu⟩
        exact Or.inr ⟨pd, List.mem_cons_of_mem q hpd, hu⟩
    · intro h
      rcases h with h | ⟨pd, hpd, hu⟩
      · exact Or.inl (Or.inl h)
      · rcases List.mem_cons.mp hpd with hq | hrest
        · exact Or.inl (Or.inr (by rw [← hu, hq]))
        · exact Or.inr ⟨pd, hrest, hu⟩

/-- The trace built for a grouped pair is among the group traces, at the
row of its group. -/
theorem mem_groupTraces (df : Frame) (xvals : List ℚ) (use_celsius : Bool)
    (f2c : ℚ → ℚ) (groups : Dict (List (String × String))) (offset i : Nat)
    (g : String × List (String × String)) (pd : String × String)
    (hg : groups.get? i = some g) (hpd : pd ∈ g.2) :
    ({ name := pd.2
       xvals := xvals
       yvals :=
         if use_celsius && unitHasDegF g.1 then (frameCol df pd.1).map f2c
         else frameCol df pd.1
       row := offset + i + 1 } : Trace) ∈
      groupTraces df xvals use_celsius f2c groups offset := by
  unfold groupTraces
  apply List.mem_flatMap.mpr
  refine ⟨(i, g), List.mk_mem_enum_iff_get?.mpr hg, ?_⟩
  exact List.mem_map_of_mem _ hpd

/-- The label left for group i of the new unit groups. -/
theorem groupLabels_get? (use_celsius : Bool)
    (groups : Dict (List (String × String))) (i : Nat)
    (g : String × List (String × String)) (hg : groups.get? i = some g) :
    (groupLabels use_celsius groups).get? i =
      some (if use_celsius && unitHasDegF g.1 && !g.2.isEmpty then
              pyReplace g.1 "deg F" "deg C"
            else g.1) := by
  unfold groupLabels
  rw [List.get?_map, hg]
  rfl

/-- Decomposition of any successful generate_plot result: the figure is a
(possibly empty) kept leading block of panels and traces followed by the new unit
groups' labels and traces, the new rows starting after the kept panels. -/
theorem generate_plot_decompose (df : Frame) (selected : List (String × String))
    (x_param x_display : String) (use_celsius : Bool) (f2c : ℚ → ℚ)
    (existing : Option Fig) (fig : Fig)
    (hgen : generate_plot df selected x_param x_display use_celsius f2c existing =
      some fig) :
    ∃ (keptPanels : List String) (keptTraces : List Trace),
      fig.panels = keptPanels ++ groupLabels use_celsius (paramUnits selected) ∧
      fig.traces = keptTraces ++
        groupTraces df
          (if use_celsius && unitHasDegF (extract_unit x_display) then
            (frameCol df x_param).map f2c
          else frameCol df x_param)
          use_celsius f2c (paramUnits selected) keptPanels.length := by
  unfold generate_plot at hgen
  by_cases hemp : selected.isEmpty
  · rw [if_pos hemp] at hgen
    cases hgen
  · rw [if_neg hemp] at hgen
    cases existing with
    | none =>
      simp only at hgen
      refine ⟨[], [], ?_, ?_⟩
      · rw [← Option.some.inj hgen]
        simp
      · rw [← Option.some.inj hgen]
        simp
    | some old =>
      simp only at hgen
      by_cases htr : old.traces.isEmpty
      · rw [htr] at hgen
        simp only [Bool.not_true, Bool.false_eq_true, if_neg] at hgen
        refine ⟨[], [], ?_, ?_⟩
        · rw [← Option.some.inj hgen]
          simp
        · rw [← Option.some.inj hgen]
          simp
      · rw [Bool.eq_false_iff.mpr htr] at hgen
        simp only [Bool.not_false, if_pos] at hgen
        refine ⟨old.panels, old.traces, ?_, ?_⟩
        · rw [← Option.some.inj hgen]
        · rw [← Option.some.inj hgen]

/-- C5: fahrenheit_to_celsius computes (f - 32) * 5/9, and every plotted
parameter gets a trace whose values are converted by it, and whose panel
label is renamed from "deg F" to "deg C", exactly when the Celsius
preference is set and the parameter's extracted unit contains "deg F". -/
theorem c5_celsius_conversion_in_plot :
    (∀ f : ℚ, fahrenheit_to_celsius f = (f - 32) * (5 / 9)) ∧
    (∀ (df : Frame) (selected : List (String × String)) (x_param x_display : String)
       (use_celsius : Bool) (existing : Option Fig) (fig : Fig) (p d : String),
       generate_plot df selected x_param x_display use_celsius fahrenheit_to_celsius
         existing = some fig →
       (p, d) ∈ selected →
       ∃ t, t ∈ fig.traces ∧ t.name = d ∧
         t.yvals = (if use_celsius && unitHasDegF (extract_unit d) then
             (frameCol df p).map fahrenheit_to_celsius
           else frameCol df p) ∧
         fig.panels.get? (t.row - 1) =
           some (if use_celsius && unitHasDegF (extract_unit d) then
               pyReplace (extract_unit d) "deg F" "deg C"
             else extract_unit d)) := by
  constructor
  · intro f
    unfold fahrenheit_to_celsius
    ring
  · intro df sel xp xd useC ex fig p d hgen hmem
    rcases generate_plot_decompose df sel xp xd useC fahrenheit_to_celsius ex fig hgen
      with ⟨pp, pt, hpanels, htraces⟩
    rcases paramUnits_mem_bucket sel [] (p, d) hmem with ⟨g, hgmem, hgkey, hpdg⟩
    rcases List.mem_iff_get?.mp hgmem with ⟨i, hgi⟩
    have htr := mem_groupTraces df
      (if useC && unitHasDegF (extract_unit xd) then
        (frameCol df xp).map fahrenheit_to_celsius
      else frameCol df xp)
      useC fahrenheit_to_celsius (paramUnits sel) pp.length i g (p, d) hgi hpdg
    have hne : g.2.isEmpty = false := by
      cases hg2 : g.2 with
      | nil =>
        rw [hg2] at hpdg
        exact absurd hpdg (List.not_mem_nil _)
      | cons a l => rfl
    have hgkey2 : g.1 = extract_unit d := hgkey
    refine ⟨{ name := d
              xvals := if useC && unitHasDegF (extract_unit xd) then
                  (frameCol df xp).map fahrenheit_to_celsius
                else frameCol df xp
              yvals := if useC && unitHasDegF g.1 then
                  (frameCol df p).map fahrenheit_to_celsius
                else frameCol df p
              row := pp.length + i + 1 }, ?_, rfl, ?_, ?_⟩
    · rw [htraces]
      exact List.mem_append.mpr (Or.inr htr)
    · simp only
      rw [hgkey2]
    · simp only
      rw [hpanels, Nat.add_sub_cancel,
        List.get?_append_right (by omega),
        Nat.add_sub_cancel_left,
        groupLabels_get? useC (paramUnits sel) i g hgi, hgkey2, hne]
      simp

/-- Witness for C5: one Fahrenheit parameter with the Celsius preference on;
its trace exists with converted (empty) values and the renamed panel. -/
theorem c5_witness :
    ∃ t, t ∈ (Fig.mk ["deg C"] [Trace.mk "T (deg F)" [] [] 1]).traces ∧
      t.name = "T (deg F)" ∧
      t.yvals = (if true && unitHasDegF (extract_unit "T (deg F)") then
          (frameCol [("p", [])] "p").map fahrenheit_to_celsius
        else frameCol [("p", [])] "p") ∧
      (Fig.mk ["deg C"] [Trace.mk "T (deg F)" [] [] 1]).panels.get? (t.row - 1) =
        some (if true && unitHasDegF (extract_unit "T (deg F)") then
            pyReplace (extract_unit "T (deg F)") "deg F" "deg C"
          else extract_unit "T (deg F)") :=
  c5_celsius_conversion_in_plot.2 [("p", [])] [("p", "T (deg F)")] "x" "x" true none
    (Fig.mk ["deg C"] [Trace.mk "T (deg F)" [] [] 1]) "p" "T (deg F)"
    (by decide) (by decide)

/-- Unfolding of generate_plot on a tab with no existing figure and a
nonempty selection. -/
theorem generate_plot_none_eq (df : Frame) (selected : List (String × String))
    (x_param x_display : String) (use_celsius : Bool) (f2c : ℚ → ℚ)
    (hne : selected.isEmpty = false) :
    generate_plot df selected x_param x_display use_celsius f2c none =
      some { panels := groupLabels use_celsius (paramUnits selected)
             traces := groupTraces df
               (if use_celsius && unitHasDegF (extract_unit x_display) then
                 (frameCol df x_param).map f2c
               else frameCol df x_param)
               use_celsius f2c (paramUnits selected) 0 } := by
  unfold generate_plot
  rw [hne]
  simp

/-- C6 (amended): when the current tab holds no figure, the generated chart
has duplicate-free unit groups covering exactly the selected columns'
extracted units, one panel per group, and every selected column's trace
sits in the row of its own unit's group.  (With an existing figure the new
unit groups are appended after the existing panels, so a unit already
panelled gets a second panel, as the counterexample shows.) -/
theorem c6_amended_one_panel_per_unit :
    ∀ (df : Frame) (selected : List (String × String)) (x_param x_display : String)
      (use_celsius : Bool) (f2c : ℚ → ℚ) (fig : Fig),
      generate_plot df selected x_param x_display use_celsius f2c none = some fig →
      (dictKeys (paramUnits selected)).Nodup ∧
      fig.panels.length = (dictKeys (paramUnits selected)).length ∧
      (∀ u, u ∈ dictKeys (paramUnits selected) ↔
        ∃ pd, pd ∈ selected ∧ extract_unit pd.2 = u) ∧
      (∀ p d, (p, d) ∈ selected →
        ∃ t i, t ∈ fig.traces ∧ t.name = d ∧ t.row = i + 1 ∧
          (dictKeys (paramUnits selected)).get? i = some (extract_unit d)) := by
  intro df sel xp xd useC f2c fig hgen
  by_cases hemp : sel.isEmpty
  · rw [generate_plot, if_pos hemp] at hgen
    cases hgen
  · have hemp2 : sel.isEmpty = false := Bool.eq_false_iff.mpr hemp
    have hfig := Option.some.inj
      ((generate_plot_none_eq df sel xp xd useC f2c hemp2).symm.trans hgen)
    refine ⟨foldl_paramUnits_nodup sel [] (by simp [dictKeys]), ?_, ?_, ?_⟩
    · rw [← hfig]
      unfold groupLabels dictKeys
      simp
    · intro u
      have h := foldl_paramUnits_keys_mem sel [] u
      simpa [dictKeys] using h
    · intro p d hmem
      rcases paramUnits_mem_bucket sel [] (p, d) hmem with ⟨g, hgmem, hgkey, hpdg⟩
      rcases List.mem_iff_get?.mp hgmem with ⟨i, hgi⟩
      have hgkey2 : g.1 = extract_unit d := hgkey
      have htr := mem_groupTraces df
        (if useC && unitHasDegF (extract_unit xd) then
          (frameCol df xp).map f2c
        else frameCol df xp)
        useC f2c (paramUnits sel) 0 i g (p, d) hgi hpdg
      refine ⟨{ name := d
                xvals := if useC && unitHasDegF (extract_unit xd) then
                    (frameCol df xp).map f2c
                  else frameCol df xp
                yvals := if useC && unitHasDegF g.1 then
                    (frameCol df p).map f2c
                  else frameCol df p
                row := 0 + i + 1 }, i, ?_, rfl, ?_, ?_⟩
      · rw [← hfig]
        exact htr
      · simp only
        omega
      · have hgi2 : (paramUnits sel).get? i = some g := hgi
        unfold dictKeys
        rw [List.get?_map, hgi2, Option.map_some', hgkey2]

/-- Witness for C6 (amended): two columns of distinct units; the panel list
of the fresh chart is duplicate-free. -/
theorem c6_amended_witness :
    (dictKeys (paramUnits [("a", "A (x)"), ("b", "B (y)")])).Nodup :=
  (c6_amended_one_panel_per_unit [("a", []), ("b", [])]
    [("a", "A (x)"), ("b", "B (y)")] "t" "t" false fahrenheit_to_celsius
    (Fig.mk ["x", "y"]
      [Trace.mk "A (x)" [] [] 1, Trace.mk "B (y)" [] [] 2])
    (by decide)).1
